import Mathlib

/-!
Verification development for the sceptre diff-rendering and console-output core.

The Python sources are embedded shallowly:
* `sceptre/diffing/diff_writer.py` — the `DiffWriter` line accumulation,
  width normalization and flush (`Line` is a Python `str` modelled as `List Char`).
* `sceptre/cli/helpers/console_writer.py` — `ConsoleWriter` and its
  value-normalization pass (`PyVal` models the Python value trees).
* `sceptre/cli/helpers/cfn_yaml_loader.py` — the CloudFormation YAML tag
  constructors.

External collaborators (PyYAML construction primitives, `cfn_flip`/`json`
dumpers, `tabulate`, the colourer) are passed in as parameters or modelled
from the specification where noted.
-/

/-- A Python `str`, modelled as its character list. -/
abbrev Line := List Char

/-- Source: `STAR_BAR = '*' * 80` in `DiffWriter`. -/
def STAR_BAR : Line := List.replicate 80 '*'

/-- Source: `LINE_BAR = '-' * 80` in `DiffWriter`. -/
def LINE_BAR : Line := List.replicate 80 '-'

/-- Python `str.splitlines` restricted to the newline character, which is the
only line boundary the diff writer ever produces (`_output` appends `'\n'`).
`"a\nb\n"` splits to `["a", "b"]` and `""` splits to `[]`, as in Python. -/
def splitLinesL : Line → List Line
  | [] => []
  | c :: cs =>
    if c = '\n' then [] :: splitLinesL cs
    else
      match splitLinesL cs with
      | [] => [[c]]
      | p :: ps => (c :: p) :: ps

/-- Recursion core of Python `str.replace`, structurally recursive on a fuel
counter so that the kernel can evaluate it; one unit of fuel is spent per
scanning step, and every step consumes at least one character, so fuel equal
to the input length (supplied by `replaceAllL`) is never exhausted. -/
def replaceFuel (pat rep : Line) : Nat → Line → Line
  | _, [] => []
  | 0, l => l
  | f + 1, c :: cs =>
    if pat ≠ [] ∧ pat.isPrefixOf (c :: cs) then
      rep ++ replaceFuel pat rep f (List.drop pat.length (c :: cs))
    else
      c :: replaceFuel pat rep f cs

/-- Python `str.replace pat rep` on character lists: every non-overlapping
occurrence of `pat`, scanning left to right, is replaced by `rep`.
(The empty-pattern case never arises in the source; it is the identity here.) -/
def replaceAllL (pat rep l : Line) : Line := replaceFuel pat rep l.length l

/-- Recursion core of Python `str.split` on a fuel counter, as for
`replaceFuel`. -/
def splitFuel (pat : Line) : Nat → Line → List Line
  | _, [] => [[]]
  | 0, l => [l]
  | f + 1, c :: cs =>
    if pat ≠ [] ∧ pat.isPrefixOf (c :: cs) then
      [] :: splitFuel pat f (List.drop pat.length (c :: cs))
    else
      match splitFuel pat f cs with
      | [] => [[c]]
      | p :: ps => (c :: p) :: ps

/-- Python `str.split pat` (for a non-empty separator) on character lists:
`"aXb"` splits at every non-overlapping occurrence of `X`. -/
def splitOnL (pat l : Line) : List Line := splitFuel pat l.length l

/-- Python `sep.join pieces` on character lists. -/
def joinSep (sep : Line) : List Line → Line
  | [] => []
  | [x] => x
  | x :: xs => x ++ sep ++ joinSep sep xs

/-- Python `pat in line` (substring containment) on character lists. -/
def isInfixOfL (pat : Line) : Line → Bool
  | [] => pat.isEmpty
  | c :: cs => pat.isPrefixOf (c :: cs) || isInfixOfL pat cs

/-- Source: `DiffWriter.compute_max_line_length`, i.e.
`len(max(itertools.chain.from_iterable(line.splitlines() for line in self.collected_lines), key=len))`:
the maximum physical line length over all collected lines, embedded newlines
split first. (Python raises on an empty chain; the theorems below therefore
require a non-empty buffer.) -/
def computeMaxLineLength (collected : List Line) : Nat :=
  (((collected.map splitLinesL).flatten).map List.length).foldl Nat.max 0

/-- Source: the loop body of `DiffWriter._output_to_stream`:
`if self.STAR_BAR in line: line = line.replace(self.STAR_BAR, full_length_star_bar)`
`elif self.LINE_BAR in line: line = line.replace(self.LINE_BAR, full_length_line_bar)`. -/
def transformLine (m : Nat) (line : Line) : Line :=
  if isInfixOfL STAR_BAR line then replaceAllL STAR_BAR (List.replicate m '*') line
  else if isInfixOfL LINE_BAR line then replaceAllL LINE_BAR (List.replicate m '-') line
  else line

/-- The mutable state of a `DiffWriter`: the `collected_lines` buffer and the
sequence of strings written so far to `output_stream`. -/
structure WriterState where
  collected : List Line
  stream : List Line
deriving DecidableEq

/-- Source: `DiffWriter._output(*lines)`: appends each line, newline-terminated,
to `collected_lines`. -/
def outputLines (lines : List Line) (st : WriterState) : WriterState :=
  { st with collected := st.collected ++ lines.map (fun l => l ++ ['\n']) }

/-- Source: `DiffWriter._output_to_stream`: computes the maximum physical line
length, stretches the star/dash bars, and writes every collected line to the
output stream. -/
def outputToStream (st : WriterState) : WriterState :=
  let m := computeMaxLineLength st.collected
  { st with stream := st.stream ++ st.collected.map (transformLine m) }

/-- Source: `StackDiff` (consumed fields only): `stack_name`, the two diff
values of the strategy's diff type `D`, `is_deployed`, `generated_config`
(an opaque configuration record of type `Γ`) and `generated_template`
(a string in the source, passed verbatim to `_output`). -/
structure StackDiffR (D : Type) (Γ : Type) where
  stack_name : Line
  template_diff : D
  config_diff : D
  is_deployed : Bool
  generated_config : Γ
  generated_template : Line

/-- The abstract operations a concrete `DiffWriter` subclass supplies:
`has_config_difference`, `has_template_difference` and `dump_diff`. -/
structure DiffStrategy (D : Type) where
  hasConfigDifference : D → Bool
  hasTemplateDifference : D → Bool
  dumpDiff : D → Line

/-- Source: `DiffWriter._write_new_stack_details`: dumps the generated config
through the output-format dumper (`cfn_flip`, passed in as `dumpConfig`) and
emits the labelled sections, including the generated template verbatim. -/
def writeNewStackDetails (dumpConfig : Γ → Line) (sd : StackDiffR D Γ)
    (st : WriterState) : WriterState :=
  outputLines
    [ "This stack is not deployed yet!".data,
      LINE_BAR,
      "New Config:".data,
      [],
      dumpConfig sd.generated_config,
      LINE_BAR,
      "New Template:".data,
      [],
      sd.generated_template ] st

/-- Source: `DiffWriter._write_config_difference`. -/
def writeConfigDifference (strat : DiffStrategy D) (sd : StackDiffR D Γ)
    (st : WriterState) : WriterState :=
  if strat.hasConfigDifference sd.config_diff then
    outputLines [ "Config difference:".data, [], strat.dumpDiff sd.config_diff ] st
  else
    outputLines [ "No stack config difference".data ] st

/-- Source: `DiffWriter._write_template_difference`. -/
def writeTemplateDifference (strat : DiffStrategy D) (sd : StackDiffR D Γ)
    (st : WriterState) : WriterState :=
  if strat.hasTemplateDifference sd.template_diff then
    outputLines [ "Template difference:".data, [], strat.dumpDiff sd.template_diff ] st
  else
    outputLines [ "No template difference".data ] st

/-- Source: `DiffWriter.write`, transcribed control flow included: the
no-difference branch and the not-deployed branch `return` without ever
calling `_output_to_stream`; only the deployed-with-difference path flushes
the buffer to the output stream. -/
def writeDiff (strat : DiffStrategy D) (dumpConfig : Γ → Line)
    (sd : StackDiffR D Γ) : WriterState :=
  let st := outputLines [STAR_BAR] ⟨[], []⟩
  if !(strat.hasConfigDifference sd.config_diff
        || strat.hasTemplateDifference sd.template_diff) then
    outputLines [ "No difference to deployed stack ".data ++ sd.stack_name ] st
  else
    let st := outputLines
      [ "--> Difference detected for stack ".data ++ sd.stack_name ++ "!".data ] st
    if !sd.is_deployed then
      writeNewStackDetails dumpConfig sd st
    else
      let st := outputLines [LINE_BAR] st
      let st := writeConfigDifference strat sd st
      let st := outputLines [LINE_BAR] st
      let st := writeTemplateDifference strat sd st
      outputToStream st

/-- Source: `DiffLibWriter`: `has_config_difference`/`has_template_difference`
are `len(diff) > 0` and `dump_diff` is `'\n'.join(diff)`. -/
def diffLibStrategy : DiffStrategy (List Line) where
  hasConfigDifference d := d.length > 0
  hasTemplateDifference d := d.length > 0
  dumpDiff d := joinSep ['\n'] d

/-- Reading of the spec sentence behind C2, one line at a time: in a line
containing the star marker, every occurrence of the star marker is replaced
by a star separator of the maximum length; in any other line, every
occurrence of the dash marker is replaced by a dash separator of that
length.  Replacement of every occurrence is expressed independently of the
source as splitting at the marker and rejoining with the stretched bar. -/
def specReplaceMarker (m : Nat) (line : Line) : Line :=
  if isInfixOfL STAR_BAR line then
    joinSep (List.replicate m '*') (splitOnL STAR_BAR line)
  else
    joinSep (List.replicate m '-') (splitOnL LINE_BAR line)

/-- Literal reading of C2 as stated: every occurrence of both fixed-width
markers in a line is replaced by a separator of exactly the maximum length. -/
def specReplaceBothMarkers (m : Nat) (line : Line) : Line :=
  joinSep (List.replicate m '-') (splitOnL LINE_BAR
    (joinSep (List.replicate m '*') (splitOnL STAR_BAR line)))

/-- Splitting never yields an empty list of pieces. -/
theorem splitFuel_ne_nil (pat : Line) (f : Nat) (l : Line) : splitFuel pat f l ≠ [] := by
  match f, l with
  | _, [] => simp [splitFuel]
  | 0, c :: cs => simp [splitFuel]
  | f + 1, c :: cs =>
    rw [splitFuel]
    by_cases h : pat ≠ [] ∧ pat.isPrefixOf (c :: cs)
    · simp [h]
    · simp only [if_neg h]
      cases hs : splitFuel pat f cs <;> simp

/-- Unfolding step for `joinSep` on a two-or-more element list. -/
theorem joinSep_cons_cons (sep x y : Line) (t : List Line) :
    joinSep sep (x :: y :: t) = x ++ sep ++ joinSep sep (y :: t) := rfl

/-- Fuel-level version of the replace/split correspondence. -/
theorem replaceFuel_eq_joinSep_splitFuel (pat rep : Line) :
    ∀ (f : Nat) (l : Line), l.length ≤ f →
      replaceFuel pat rep f l = joinSep rep (splitFuel pat f l) := by
  intro f
  induction f with
  | zero =>
    intro l hl
    have hnil : l = [] := List.length_eq_zero.mp (Nat.le_zero.mp hl)
    subst hnil
    simp [replaceFuel, splitFuel, joinSep]
  | succ f ih =>
    intro l hl
    cases l with
    | nil => simp [replaceFuel, splitFuel, joinSep]
    | cons c cs =>
      rw [replaceFuel, splitFuel]
      by_cases h : pat ≠ [] ∧ pat.isPrefixOf (c :: cs)
      · simp only [if_pos h]
        have hplen : 0 < pat.length := List.length_pos.mpr h.1
        have hdrop : (List.drop pat.length (c :: cs)).length ≤ f := by
          simp only [List.length_drop, List.length_cons]
          have hcl : cs.length + 1 ≤ f + 1 := by simpa using hl
          omega
        obtain ⟨s, ss, hs⟩ :
            ∃ s ss, splitFuel pat f (List.drop pat.length (c :: cs)) = s :: ss := by
          cases hsp : splitFuel pat f (List.drop pat.length (c :: cs)) with
          | nil => exact absurd hsp (splitFuel_ne_nil pat f _)
          | cons s ss => exact ⟨s, ss, rfl⟩
        rw [ih _ hdrop, hs, joinSep_cons_cons]
        simp [joinSep]
      · simp only [if_neg h]
        have hcs : cs.length ≤ f := by
          have hcl : cs.length + 1 ≤ f + 1 := by simpa using hl
          omega
        obtain ⟨s, ss, hs⟩ : ∃ s ss, splitFuel pat f cs = s :: ss := by
          cases hsp : splitFuel pat f cs with
          | nil => exact absurd hsp (splitFuel_ne_nil pat f _)
          | cons s ss => exact ⟨s, ss, rfl⟩
        rw [ih _ hcs, hs]
        cases ss with
        | nil => simp [joinSep]
        | cons q qs => rw [joinSep_cons_cons]; simp [joinSep_cons_cons]

/-- Python `replace` coincides with split-then-rejoin: replacing every
occurrence of a pattern equals splitting at the pattern and joining the
pieces with the replacement. -/
theorem replaceAllL_eq_joinSep_splitOnL (pat rep l : Line) :
    replaceAllL pat rep l = joinSep rep (splitOnL pat l) :=
  replaceFuel_eq_joinSep_splitFuel pat rep l.length l (Nat.le_refl _)

/-- Fuel-level version: a pattern that does not occur splits nothing. -/
theorem splitFuel_of_not_infix (pat : Line) :
    ∀ (f : Nat) (l : Line), isInfixOfL pat l = false → splitFuel pat f l = [l] := by
  intro f
  induction f with
  | zero =>
    intro l hinf
    cases l <;> simp [splitFuel]
  | succ f ih =>
    intro l hinf
    cases l with
    | nil => simp [splitFuel]
    | cons c cs =>
      rw [isInfixOfL] at hinf
      simp only [Bool.or_eq_false_iff] at hinf
      rw [splitFuel]
      have hnot : ¬(pat ≠ [] ∧ pat.isPrefixOf (c :: cs)) := by
        intro hc
        rw [hinf.1] at hc
        exact Bool.false_ne_true hc.2
      simp only [if_neg hnot]
      rw [ih cs hinf.2]

/-- Splitting at a pattern that does not occur in the line returns the line
as the single piece. -/
theorem splitOnL_of_not_infix (pat l : Line) (h : isInfixOfL pat l = false) :
    splitOnL pat l = [l] :=
  splitFuel_of_not_infix pat l.length l h

/-- Per-line agreement between the source transform and the amended claim's
replacement description. -/
theorem transformLine_eq_specReplaceMarker (m : Nat) (l : Line) :
    transformLine m l = specReplaceMarker m l := by
  rw [transformLine, specReplaceMarker]
  by_cases hs : isInfixOfL STAR_BAR l
  · rw [if_pos hs, if_pos hs,
      replaceAllL_eq_joinSep_splitOnL STAR_BAR (List.replicate m '*') l]
  · rw [if_neg hs, if_neg hs]
    by_cases hlb : isInfixOfL LINE_BAR l
    · rw [if_pos hlb,
        replaceAllL_eq_joinSep_splitOnL LINE_BAR (List.replicate m '-') l]
    · rw [if_neg hlb, splitOnL_of_not_infix LINE_BAR l
        (by revert hlb; cases isInfixOfL LINE_BAR l <;> simp)]
      rfl

/-- C1: for a `StackDiff` with empty config diff, empty template diff and
`is_deployed = true`, `DiffWriter.write` accumulates exactly the two claimed
lines (separator, then `No difference to deployed stack mystack`) but the
output sink receives nothing: the no-difference branch returns before
`_output_to_stream` runs, contradicting the claim (and the method's own
docstring) that every accumulated line is written to the output sink. -/
theorem write_no_difference_collects_two_lines_but_streams_nothing :
    (writeDiff diffLibStrategy (fun _ : Unit => [])
        ⟨"mystack".data, [], [], true, (), []⟩).collected
        = [STAR_BAR ++ ['\n'], "No difference to deployed stack mystack\n".data]
      ∧ (writeDiff diffLibStrategy (fun _ : Unit => [])
          ⟨"mystack".data, [], [], true, (), []⟩).stream
        = [] := by
  constructor <;> decide

/-- C3: for a not-yet-deployed stack with a difference, `DiffWriter.write`
accumulates the labelled `New Config:`/`New Template:` sections with the full
config dump and template (and no `difference` section headers), but delivers
nothing to the output sink: the not-deployed branch returns before
`_output_to_stream` runs, for every choice of config dumper, config record
and template text. -/
theorem write_new_stack_details_streams_nothing :
    (writeDiff diffLibStrategy (fun _ : Unit => "config_dump_text".data)
        ⟨"s".data, [], ["+x".data], false, (), "template_text".data⟩).collected
        = ([ STAR_BAR,
             "--> Difference detected for stack s!".data,
             "This stack is not deployed yet!".data,
             LINE_BAR,
             "New Config:".data,
             [],
             "config_dump_text".data,
             LINE_BAR,
             "New Template:".data,
             [],
             "template_text".data ].map (fun l => l ++ ['\n']))
      ∧ (writeDiff diffLibStrategy (fun _ : Unit => "config_dump_text".data)
          ⟨"s".data, [], ["+x".data], false, (), "template_text".data⟩).stream = [] := by
  constructor <;> rfl

/-- Concrete deployed-with-difference report whose dumped diff line contains
both fixed-width markers at once (a `DiffLibWriter` diff line may be any
string, so this arises from an ordinary `write` run). -/
def c2Report : WriterState :=
  writeDiff diffLibStrategy (fun _ : Unit => [])
    ⟨"s".data, [], [STAR_BAR ++ LINE_BAR], true, (), []⟩

set_option maxRecDepth 100000 in
/-- C2 counterexample: the claim as stated — every occurrence of both
fixed-width separator markers is replaced by a separator of exactly the
maximum physical line length — fails on the report `c2Report`: the line
containing both markers keeps its 80-dash marker because the source replaces
star bars `elif` dash bars, never both in one line. -/
theorem output_keeps_dash_marker_cex :
    c2Report.stream ≠
      c2Report.collected.map
        (specReplaceBothMarkers (computeMaxLineLength c2Report.collected)) := by
  decide

/-- C2 amended: `_output_to_stream` computes the maximum physical line length
over the whole buffer (each line split at embedded newlines first, the
marker lines themselves included in the scan) and, per accumulated line,
replaces every occurrence of the star marker by a star separator of exactly
that maximum length when the line contains one, and otherwise every
occurrence of the dash marker by a dash separator of that length; every
transformed line is written, in order, to the output sink.  (The buffer is
non-empty whenever `write` flushes, and Python's `max` requires that.) -/
theorem outputToStream_replaces_markers_per_line (st : WriterState)
    (h : st.collected ≠ []) :
    (outputToStream st).stream =
      st.stream ++ st.collected.map
        (specReplaceMarker (computeMaxLineLength st.collected)) := by
  have hfun : transformLine (computeMaxLineLength st.collected)
      = specReplaceMarker (computeMaxLineLength st.collected) :=
    funext (transformLine_eq_specReplaceMarker (computeMaxLineLength st.collected))
  rw [outputToStream]
  simp only [hfun]

/-- Witness for the amended C2 theorem at a concrete one-line buffer. -/
theorem outputToStream_replaces_markers_per_line_witness :
    ([['a', '\n']] : List Line) ≠ [] ∧
      (outputToStream ⟨[['a', '\n']], []⟩).stream =
        [] ++ ([['a', '\n']] : List Line).map
          (specReplaceMarker (computeMaxLineLength [['a', '\n']])) :=
  ⟨by decide, outputToStream_replaces_markers_per_line ⟨[['a', '\n']], []⟩ (by decide)⟩

/-- Python value trees handled by `ConsoleWriter` (`console_writer.py`):
mappings, sequences and the primitives of `PRIMITIVE_TYPES = (str, int,
float, NoneType, bool)`.  Floats are carried as their opaque repr text; the
claims never compute with them.  Mapping keys are modelled as strings. -/
inductive PyVal where
  | dict : List (String × PyVal) → PyVal
  | list : List PyVal → PyVal
  | str : String → PyVal
  | int : Int → PyVal
  | float : String → PyVal
  | bool : Bool → PyVal
  | null : PyVal

mutual
/-- Source: `ConsoleWriter._prepare_value_for_serialization`: recurse into
mappings and sequences, attempt to decode strings through the external YAML
loader (`yaml.load(value, Loader=CfnYamlLoader)`, passed in as `decode`;
a raised decode exception is the `Except.error` case and falls back to the
original string), and return every other primitive unchanged. -/
def prepare (decode : String → Except String PyVal) : PyVal → PyVal
  | .dict kvs => .dict (prepareKVs decode kvs)
  | .list xs => .list (prepareItems decode xs)
  | .str s =>
    match decode s with
    | .ok v => v
    | .error _ => .str s
  | .int n => .int n
  | .float r => .float r
  | .bool b => .bool b
  | .null => .null

/-- The dict comprehension of `_prepare_value_for_serialization`. -/
def prepareKVs (decode : String → Except String PyVal) :
    List (String × PyVal) → List (String × PyVal)
  | [] => []
  | (k, v) :: rest => (k, prepare decode v) :: prepareKVs decode rest

/-- The list comprehension of `_prepare_value_for_serialization`. -/
def prepareItems (decode : String → Except String PyVal) : List PyVal → List PyVal
  | [] => []
  | x :: rest => prepare decode x :: prepareItems decode rest
end

/-- Source: `isinstance(item, PRIMITIVE_TYPES)`: true exactly for the
non-container values. -/
def isPrimitive : PyVal → Bool
  | .dict _ => false
  | .list _ => false
  | _ => true

/-- Source: `isinstance(item, dict)`. -/
def isDict : PyVal → Bool
  | .dict _ => true
  | _ => false

/-- Source: `isinstance(value, list)`. -/
def isList : PyVal → Bool
  | .list _ => true
  | _ => false

/-- True exactly for string values. -/
def isStr : PyVal → Bool
  | .str _ => true
  | _ => false

/-- Python `str(item)` on the primitives (the only values the text renderer
applies it to). -/
def pyStr : PyVal → String
  | .str s => s
  | .int n => toString n
  | .float r => r
  | .bool b => if b then "True" else "False"
  | .null => "None"
  | .dict _ => ""
  | .list _ => ""

/-- The external collaborators of `ConsoleWriter`: the `json.dumps` and
`yaml.safe_dump` serializers and the two `tabulate` calls, injected as
opaque functions. -/
structure ConsoleEnv where
  jsonDumps : PyVal → String
  yamlDump : PyVal → String
  tabulateKeys : List PyVal → String
  tabulatePairs : List (String × PyVal) → String

/-- Source: `ConsoleWriter._convert_to_json` (delegates to `json.dumps`). -/
def convertToJson (env : ConsoleEnv) (v : PyVal) : String := env.jsonDumps v

/-- Source: `ConsoleWriter._convert_to_yaml` (delegates to `yaml.safe_dump`). -/
def convertToYaml (env : ConsoleEnv) (v : PyVal) : String := env.yamlDump v

/-- Source: `ConsoleWriter._convert_to_text`, heuristics in source order:
a list of primitives joins one element per line; a list of dicts renders as
a keyed table; a dict with primitive values renders as a key/value table;
everything else falls back to YAML rendering. -/
def convertToText (env : ConsoleEnv) (v : PyVal) : String :=
  match v with
  | .list xs =>
    if xs.all isPrimitive then String.intercalate "\n" (xs.map pyStr)
    else if xs.all isDict then env.tabulateKeys xs
    else convertToYaml env v
  | .dict kvs =>
    if (kvs.map Prod.snd).all isPrimitive then env.tabulatePairs kvs
    else convertToYaml env v
  | _ => convertToYaml env v

/-- The three conversion methods that exist on the `ConsoleWriter` class. -/
inductive ConvertMethod where
  | text
  | json
  | yaml

/-- Python attribute lookup on a `ConsoleWriter` instance for the given
attribute name: exactly the three `_convert_to_*` methods exist. -/
def classAttr (name : String) : Option ConvertMethod :=
  if name = "_convert_to_json" then some ConvertMethod.json
  else if name = "_convert_to_yaml" then some ConvertMethod.yaml
  else if name = "_convert_to_text" then some ConvertMethod.text
  else none

/-- Source: `ConsoleWriter.__init__`:
`self._stringify = getattr(self, f'_convert_to_{output_format}')`; an
unknown format raises `AttributeError` at construction time. -/
def initConsoleWriter (output_format : String) : Except String ConvertMethod :=
  match classAttr ("_convert_to_" ++ output_format) with
  | some m => Except.ok m
  | none => Except.error
      ("AttributeError: ConsoleWriter object has no attribute _convert_to_"
        ++ output_format)

/-- Dispatch of the bound `_stringify` method. -/
def stringifyWith (env : ConsoleEnv) (m : ConvertMethod) (v : PyVal) : String :=
  match m with
  | ConvertMethod.text => convertToText env v
  | ConvertMethod.json => convertToJson env v
  | ConvertMethod.yaml => convertToYaml env v

/-- Source: the module-level `write(var, output_format, no_colour)` entry
point followed by `ConsoleWriter.write`: construct the (possibly colouring)
writer, then prepare the value, stringify it, optionally colour it, and
emit exactly one string through the output function.  The result is the
sequence of strings emitted; a construction failure emits nothing. -/
def consoleWrite (env : ConsoleEnv) (decode : String → Except String PyVal)
    (colourer : String → String) (output_format : String) (no_colour : Bool)
    (var : PyVal) : Except String (List String) :=
  match initConsoleWriter output_format with
  | Except.error e => Except.error e
  | Except.ok m =>
    let prepared := prepare decode var
    let asString := stringifyWith env m prepared
    Except.ok [if no_colour then asString else colourer asString]

/-- Modelled from the spec: three concrete decode facts of the external YAML
scalar grammar used by `_prepare_value_for_serialization` (PyYAML with
`CfnYamlLoader`; the spec notes the loader "loads unquoted primative types
as well"): the three-character string consisting of a double-quoted 1
decodes to the bare string 1; the bare string 1 decodes to the integer 1;
every other string here fails to decode. -/
def decodeEx : String → Except String PyVal := fun s =>
  if s = "\"1\"" then Except.ok (PyVal.str "1")
  else if s = "1" then Except.ok (PyVal.int 1)
  else Except.error "yaml parse failure"

/-- C5 counterexample: normalization is not idempotent on a sequence of
primitives.  The singleton list holding the double-quoted string 1 (all of
whose elements are primitives) normalizes to the list holding the bare
string 1, and normalizing again yields the list holding the integer 1,
because a successfully decoded string is returned as-is and only re-decoded
on the next pass. -/
theorem prepare_not_idempotent_cex :
    ([PyVal.str "\"1\""].all isPrimitive = true)
  ∧ prepare decodeEx (prepare decodeEx (PyVal.list [PyVal.str "\"1\""]))
      ≠ prepare decodeEx (PyVal.list [PyVal.str "\"1\""]) := by
  refine ⟨rfl, ?_⟩
  show PyVal.list [PyVal.int 1] ≠ PyVal.list [PyVal.str "1"]
  simp

/-- A value is stable under decoding when, if it is a string, the decoder
either fails on it, returns it unchanged, or returns a non-string,
non-container primitive. -/
def StableUnder (decode : String → Except String PyVal) (x : PyVal) : Prop :=
  ∀ s, x = PyVal.str s →
    (∃ e, decode s = Except.error e) ∨ decode s = Except.ok (PyVal.str s) ∨
      ∃ p, decode s = Except.ok p ∧ isPrimitive p = true ∧ isStr p = false

/-- Normalization leaves non-string primitives unchanged. -/
theorem prepare_eq_self_of_nonstring_primitive
    (decode : String → Except String PyVal) (p : PyVal)
    (hp : isPrimitive p = true) (hs : isStr p = false) :
    prepare decode p = p := by
  cases p with
  | dict kvs => simp [isPrimitive] at hp
  | list xs => simp [isPrimitive] at hp
  | str s => simp [isStr] at hs
  | int n => rfl
  | float r => rfl
  | bool b => rfl
  | null => rfl

/-- Normalizing a stable primitive twice equals normalizing it once. -/
theorem prepare_fix_of_primitive_stable
    (decode : String → Except String PyVal) (x : PyVal)
    (hp : isPrimitive x = true) (hs : StableUnder decode x) :
    prepare decode (prepare decode x) = prepare decode x := by
  cases x with
  | dict kvs => simp [isPrimitive] at hp
  | list xs => simp [isPrimitive] at hp
  | str s =>
    rcases hs s rfl with ⟨e, he⟩ | hok | ⟨p, hpk, hpp, hps⟩
    · simp [prepare, he]
    · simp [prepare, hok]
    · have h1 : prepare decode (PyVal.str s) = p := by simp [prepare, hpk]
      rw [h1, prepare_eq_self_of_nonstring_primitive decode p hpp hps]
  | int n => rfl
  | float r => rfl
  | bool b => rfl
  | null => rfl

/-- C5 amended: normalization is idempotent on every mapping or sequence of
primitive elements provided each element is stable under decoding (the
decoder fails on it, returns it unchanged, or returns a non-string
primitive).  The unrestricted claim fails, because a successfully decoded
string value is not re-normalized: a string element whose decode result is
a different string decodes further on the second pass. -/
theorem prepare_idempotent_on_stable_primitives
    (decode : String → Except String PyVal) :
    (∀ kvs : List (String × PyVal),
        (∀ kv ∈ kvs, isPrimitive kv.2 = true ∧ StableUnder decode kv.2) →
        prepare decode (prepare decode (PyVal.dict kvs))
          = prepare decode (PyVal.dict kvs))
  ∧ (∀ xs : List PyVal,
        (∀ x ∈ xs, isPrimitive x = true ∧ StableUnder decode x) →
        prepare decode (prepare decode (PyVal.list xs))
          = prepare decode (PyVal.list xs)) := by
  constructor
  · intro kvs h
    show PyVal.dict (prepareKVs decode (prepareKVs decode kvs))
      = PyVal.dict (prepareKVs decode kvs)
    congr 1
    revert h
    induction kvs with
    | nil => intro h; rfl
    | cons kv rest ih =>
      intro h
      obtain ⟨k, v⟩ := kv
      have hv := h (k, v) (List.mem_cons_self _ _)
      have hrest : ∀ kv ∈ rest, isPrimitive kv.2 = true ∧ StableUnder decode kv.2 :=
        fun kv hkv => h kv (List.mem_cons_of_mem _ hkv)
      simp only [prepareKVs]
      rw [prepare_fix_of_primitive_stable decode v hv.1 hv.2, ih hrest]
  · intro xs h
    show PyVal.list (prepareItems decode (prepareItems decode xs))
      = PyVal.list (prepareItems decode xs)
    congr 1
    revert h
    induction xs with
    | nil => intro h; rfl
    | cons x rest ih =>
      intro h
      have hx := h x (List.mem_cons_self _ _)
      have hrest : ∀ y ∈ rest, isPrimitive y = true ∧ StableUnder decode y :=
        fun y hy => h y (List.mem_cons_of_mem _ hy)
      simp only [prepareItems]
      rw [prepare_fix_of_primitive_stable decode x hx.1 hx.2, ih hrest]

/-- Witness for the amended C5 theorem: a concrete decoder and a concrete
two-element sequence of stable primitives. -/
theorem prepare_idempotent_on_stable_primitives_witness :
    (∀ x ∈ [PyVal.str "1", PyVal.int 2], isPrimitive x = true ∧ StableUnder decodeEx x)
  ∧ prepare decodeEx (prepare decodeEx (PyVal.list [PyVal.str "1", PyVal.int 2]))
      = prepare decodeEx (PyVal.list [PyVal.str "1", PyVal.int 2]) := by
  have hstable : ∀ x ∈ [PyVal.str "1", PyVal.int 2],
      isPrimitive x = true ∧ StableUnder decodeEx x := by
    intro x hx
    rcases List.mem_cons.mp hx with h1 | hx2
    · subst h1
      refine ⟨rfl, ?_⟩
      intro s hs
      injection hs with hs'
      subst hs'
      right; right
      exact ⟨PyVal.int 1, rfl, rfl, rfl⟩
    · rcases List.mem_cons.mp hx2 with h2 | h3
      · subst h2
        refine ⟨rfl, ?_⟩
        intro s hs
        exact absurd hs (by simp)
      · simp at h3
  exact ⟨hstable, (prepare_idempotent_on_stable_primitives decodeEx).2 _ hstable⟩

/-- The dict comprehension equals a `List.map` over the entries. -/
theorem prepareKVs_eq_map (decode : String → Except String PyVal)
    (kvs : List (String × PyVal)) :
    prepareKVs decode kvs = kvs.map (fun kv => (kv.1, prepare decode kv.2)) := by
  induction kvs with
  | nil => rfl
  | cons kv rest ih =>
    obtain ⟨k, v⟩ := kv
    simp [prepareKVs, ih]

/-- The list comprehension equals a `List.map` over the items. -/
theorem prepareItems_eq_map (decode : String → Except String PyVal)
    (xs : List PyVal) :
    prepareItems decode xs = xs.map (prepare decode) := by
  induction xs with
  | nil => rfl
  | cons x rest ih => simp [prepareItems, ih]

/-- C6: the Value Normalizer is total for every decoder and never lets a
decode failure escape: a string whose decode succeeds is replaced by the
decoded value; a string whose decode raises is returned byte-identical (the
error is absorbed, never propagated); mappings and sequences are normalized
fieldwise; every non-string primitive is returned unchanged. -/
theorem prepare_normalizes_without_raising
    (decode : String → Except String PyVal) :
    (∀ s v, decode s = Except.ok v → prepare decode (PyVal.str s) = v)
  ∧ (∀ s e, decode s = Except.error e → prepare decode (PyVal.str s) = PyVal.str s)
  ∧ (∀ kvs, prepare decode (PyVal.dict kvs)
      = PyVal.dict (kvs.map (fun kv => (kv.1, prepare decode kv.2))))
  ∧ (∀ xs, prepare decode (PyVal.list xs) = PyVal.list (xs.map (prepare decode)))
  ∧ (∀ n, prepare decode (PyVal.int n) = PyVal.int n)
  ∧ (∀ r, prepare decode (PyVal.float r) = PyVal.float r)
  ∧ (∀ b, prepare decode (PyVal.bool b) = PyVal.bool b)
  ∧ prepare decode PyVal.null = PyVal.null := by
  refine ⟨?_, ?_, ?_, ?_, fun n => rfl, fun r => rfl, fun b => rfl, rfl⟩
  · intro s v h
    simp [prepare, h]
  · intro s e h
    simp [prepare, h]
  · intro kvs
    simp [prepare, prepareKVs_eq_map]
  · intro xs
    simp [prepare, prepareItems_eq_map]

/-- Witness for C6 at the concrete decoder: a decodable string is replaced
by its parse, an undecodable string survives byte-identical. -/
theorem prepare_normalizes_without_raising_witness :
    decodeEx "1" = Except.ok (PyVal.int 1)
  ∧ prepare decodeEx (PyVal.str "1") = PyVal.int 1
  ∧ decodeEx "zzz" = Except.error "yaml parse failure"
  ∧ prepare decodeEx (PyVal.str "zzz") = PyVal.str "zzz" :=
  ⟨rfl, (prepare_normalizes_without_raising decodeEx).1 "1" (PyVal.int 1) rfl,
   rfl, (prepare_normalizes_without_raising decodeEx).2.1 "zzz" "yaml parse failure" rfl⟩

/-- Concrete environment of external renderers used to instantiate the
formatter theorems: each collaborator returns a distinct marker string. -/
def envEx : ConsoleEnv where
  jsonDumps := fun _ => "jsonout"
  yamlDump := fun _ => "yamlout"
  tabulateKeys := fun _ => "keytable"
  tabulatePairs := fun _ => "pairtable"

/-- C9: text-mode structural heuristics in source priority order: a sequence
of primitives renders one element per line; otherwise a sequence of
mappings renders as a keyed table; a mapping with primitive values renders
as a key/value table; every other shape (including every primitive) falls
back to YAML rendering instead of erroring. -/
theorem convert_to_text_heuristics (env : ConsoleEnv) :
    (∀ xs, xs.all isPrimitive = true →
        convertToText env (PyVal.list xs) = String.intercalate "\n" (xs.map pyStr))
  ∧ (∀ xs, xs.all isPrimitive = false → xs.all isDict = true →
        convertToText env (PyVal.list xs) = env.tabulateKeys xs)
  ∧ (∀ kvs, (kvs.map Prod.snd).all isPrimitive = true →
        convertToText env (PyVal.dict kvs) = env.tabulatePairs kvs)
  ∧ (∀ xs, xs.all isPrimitive = false → xs.all isDict = false →
        convertToText env (PyVal.list xs) = convertToYaml env (PyVal.list xs))
  ∧ (∀ kvs, (kvs.map Prod.snd).all isPrimitive = false →
        convertToText env (PyVal.dict kvs) = convertToYaml env (PyVal.dict kvs))
  ∧ (∀ v, isList v = false → isDict v = false →
        convertToText env v = convertToYaml env v) := by
  refine ⟨?_, ?_, ?_, ?_, ?_, ?_⟩
  · intro xs h
    simp [convertToText, h]
  · intro xs h1 h2
    simp [convertToText, h1, h2]
  · intro kvs h
    simp [convertToText, h]
  · intro xs h1 h2
    simp [convertToText, h1, h2]
  · intro kvs h
    simp [convertToText, h]
  · intro v h1 h2
    cases v with
    | dict kvs => simp [isDict] at h2
    | list xs => simp [isList] at h1
    | str s => rfl
    | int n => rfl
    | float r => rfl
    | bool b => rfl
    | null => rfl

/-- Witness for C9: the first heuristic on a list of primitives, the second
heuristic on a list of dicts, and the fallback on a bare string. -/
theorem convert_to_text_heuristics_witness :
    ([PyVal.int 1, PyVal.str "a"].all isPrimitive = true
      ∧ convertToText envEx (PyVal.list [PyVal.int 1, PyVal.str "a"])
          = String.intercalate "\n" ([PyVal.int 1, PyVal.str "a"].map pyStr))
  ∧ ([PyVal.dict []].all isPrimitive = false
      ∧ [PyVal.dict []].all isDict = true
      ∧ convertToText envEx (PyVal.list [PyVal.dict []])
          = envEx.tabulateKeys [PyVal.dict []])
  ∧ (isList (PyVal.str "x") = false ∧ isDict (PyVal.str "x") = false
      ∧ convertToText envEx (PyVal.str "x") = convertToYaml envEx (PyVal.str "x")) :=
  ⟨⟨rfl, (convert_to_text_heuristics envEx).1 _ rfl⟩,
   ⟨rfl, rfl, (convert_to_text_heuristics envEx).2.1 _ rfl rfl⟩,
   ⟨rfl, rfl, (convert_to_text_heuristics envEx).2.2.2.2.2 _ rfl rfl⟩⟩

/-- Appending on the left of string concatenation is cancellable. -/
theorem string_append_left_cancel (a b c : String) (h : a ++ b = a ++ c) : b = c := by
  have hd := congrArg String.data h
  rw [String.data_append, String.data_append] at hd
  exact String.ext (List.append_cancel_left hd)

set_option maxHeartbeats 2000000 in
/-- C10: for every output-format string other than text, json and yaml,
constructing the `ConsoleWriter` fails with an attribute-lookup error, and
the top-level write entry point therefore fails before any value is
serialized or anything is emitted to the output function; the three
supported formats construct successfully. -/
theorem console_writer_unknown_format_fails_at_init (fmt : String)
    (h1 : fmt ≠ "text") (h2 : fmt ≠ "json") (h3 : fmt ≠ "yaml") :
    (initConsoleWriter fmt = Except.error
        ("AttributeError: ConsoleWriter object has no attribute _convert_to_" ++ fmt))
  ∧ (∀ env decode colourer no_colour var,
      consoleWrite env decode colourer fmt no_colour var = Except.error
        ("AttributeError: ConsoleWriter object has no attribute _convert_to_" ++ fmt))
  ∧ initConsoleWriter "text" = Except.ok ConvertMethod.text
  ∧ initConsoleWriter "json" = Except.ok ConvertMethod.json
  ∧ initConsoleWriter "yaml" = Except.ok ConvertMethod.yaml := by
  have hj : "_convert_to_" ++ fmt ≠ "_convert_to_json" := fun hc =>
    h2 (string_append_left_cancel "_convert_to_" fmt "json" hc)
  have hy : "_convert_to_" ++ fmt ≠ "_convert_to_yaml" := fun hc =>
    h3 (string_append_left_cancel "_convert_to_" fmt "yaml" hc)
  have ht : "_convert_to_" ++ fmt ≠ "_convert_to_text" := fun hc =>
    h1 (string_append_left_cancel "_convert_to_" fmt "text" hc)
  have herr : initConsoleWriter fmt = Except.error
      ("AttributeError: ConsoleWriter object has no attribute _convert_to_" ++ fmt) := by
    simp only [initConsoleWriter, classAttr, if_neg hj, if_neg hy, if_neg ht]
  refine ⟨herr, ?_, rfl, rfl, rfl⟩
  intro env decode colourer no_colour var
  simp only [consoleWrite, herr]

/-- Witness for C10 at the unsupported format string xml. -/
theorem console_writer_unknown_format_fails_at_init_witness :
    ("xml" : String) ≠ "text"
  ∧ initConsoleWriter "xml" = Except.error
      ("AttributeError: ConsoleWriter object has no attribute _convert_to_" ++ "xml") :=
  ⟨by decide,
   (console_writer_unknown_format_fails_at_init "xml" (by decide) (by decide)
     (by decide)).1⟩

/-- Source: `CFN_TAGS` in `cfn_yaml_loader.py`. -/
def CFN_TAGS : List String := ["Condition", "Ref"]

/-- Source: `CFN_FNS` in `cfn_yaml_loader.py`. -/
def CFN_FNS : List String :=
  ["And", "Base64", "Cidr", "Equals", "FindInMap", "GetAtt", "GetAZs", "If",
   "ImportValue", "Join", "Not", "Or", "Select", "Split", "Sub", "Transform"]

/-- Code-point lexicographic order on character lists, the order Python's
`sorted` uses for strings. -/
def lexLeChars : List Char → List Char → Bool
  | [], _ => true
  | _ :: _, [] => false
  | a :: as, b :: bs => if a = b then lexLeChars as bs else decide (a < b)

/-- Python string comparison for `sorted`. -/
def strLe (a b : String) : Bool := lexLeChars a.data b.data

/-- Insertion step of `sortStrings`. -/
def insertSortedStr (x : String) : List String → List String
  | [] => [x]
  | y :: ys => if strLe x y then x :: y :: ys else y :: insertSortedStr x ys

/-- Python `sorted` on a list of strings (insertion sort over the
code-point order). -/
def sortStrings : List String → List String
  | [] => []
  | x :: xs => insertSortedStr x (sortStrings xs)

/-- The sorted supported-tag list `sorted(CFN_TAGS + CFN_FNS)`. -/
def supportedTagsSorted : List String := sortStrings (CFN_TAGS ++ CFN_FNS)

/-- Source: the error text of `_tag_constructor` for an unsupported tag,
after formatting. -/
def badTagMessage (tag_suffix : String) : String :=
  "Bad tag: !" ++ tag_suffix
    ++ (". Supported tags are: " ++ String.intercalate ", " supportedTagsSorted)

/-- Python errors distinguished by the tag constructors. -/
inductive PyErr where
  | valueError : String → PyErr
  | attributeError : String → PyErr
  | constructorError : String → PyErr

/-- PyYAML nodes as consumed by the constructors: scalar nodes carry their
string value, sequence nodes their item nodes, mapping nodes their pairs of
key/value nodes.  `scalarRaw` models a hand-built ScalarNode whose value is
neither a str nor a list; it is unreachable from parsing, but the source's
`_getatt_constructor` has an explicit branch for that value shape. -/
inductive YamlNode where
  | scalar : String → YamlNode
  | scalarRaw : YamlNode
  | seq : List YamlNode → YamlNode
  | mapping : List (YamlNode × YamlNode) → YamlNode

/-- Values produced by construction; `rawVal` is the opaque non-string
value carried by a hand-built scalar node. -/
inductive YamlVal where
  | str : String → YamlVal
  | list : List YamlVal → YamlVal
  | dictV : List (YamlVal × YamlVal) → YamlVal
  | rawVal : YamlVal

mutual
/-- PyYAML `construct_object` on plain (untagged) child nodes: scalar nodes
decode to their string, sequence nodes to the ordered sequence of decoded
items, mapping nodes to the decoded pairs. -/
def constructObject : YamlNode → YamlVal
  | .scalar s => .str s
  | .scalarRaw => .rawVal
  | .seq items => .list (constructItems items)
  | .mapping prs => .dictV (constructPairs prs)

/-- Items of a sequence node, decoded in order. -/
def constructItems : List YamlNode → List YamlVal
  | [] => []
  | n :: rest => constructObject n :: constructItems rest

/-- Pairs of a mapping node, decoded in order. -/
def constructPairs : List (YamlNode × YamlNode) → List (YamlVal × YamlVal)
  | [] => []
  | (k, v) :: rest => (constructObject k, constructObject v) :: constructPairs rest
end

/-- PyYAML `construct_scalar`: the value of a scalar node; any other node
raises `ConstructorError`. -/
def constructScalar : YamlNode → Except PyErr YamlVal
  | .scalar s => .ok (.str s)
  | .scalarRaw => .ok .rawVal
  | _ => .error (.constructorError "expected a scalar node")

/-- PyYAML `construct_sequence`. -/
def constructSequence : YamlNode → Except PyErr (List YamlVal)
  | .seq items => .ok (constructItems items)
  | _ => .error (.constructorError "expected a sequence node")

/-- PyYAML `construct_mapping`. -/
def constructMapping : YamlNode → Except PyErr (List (YamlVal × YamlVal))
  | .mapping prs => .ok (constructPairs prs)
  | _ => .error (.constructorError "expected a mapping node")

/-- The first argument that `functools` applies to `_getatt_constructor`:
the source builds the application with the one-element tuple `(loader, )`,
not the loader itself. -/
inductive GetAttLoaderArg where
  | properLoader
  | loaderWrappedInTuple

/-- Calling `.construct_sequence(node)` on the applied first argument: a
tuple has no such attribute, so the wrapped form raises `AttributeError`. -/
def callConstructSequence : GetAttLoaderArg → YamlNode → Except PyErr (List YamlVal)
  | .properLoader, node => constructSequence node
  | .loaderWrappedInTuple, _ =>
      .error (.attributeError "tuple object has no attribute construct_sequence")

/-- Python `s.split(fullstop, 1)`: split at the first separator only. -/
def pySplitOnce (s : String) : List String :=
  let pre := s.data.takeWhile (fun c => c ≠ '.')
  match s.data.dropWhile (fun c => c ≠ '.') with
  | [] => [s]
  | _ :: tail => [⟨pre⟩, ⟨tail⟩]

/-- True exactly for string values, as `isinstance(item, six.text_type)`. -/
def isStrYamlVal : YamlVal → Bool
  | .str _ => true
  | _ => false

/-- Source: `_getatt_constructor(loader, node)`: a str value is split at
the first separator into at most two parts; a list value (sequence and
mapping nodes both carry list values) goes through
`loader.construct_sequence` and every element must be a string; any other
value shape is the documented `ValueError`. -/
def getattConstructor (larg : GetAttLoaderArg) (node : YamlNode) :
    Except PyErr YamlVal :=
  match node with
  | .scalar s => .ok (.list ((pySplitOnce s).map YamlVal.str))
  | .seq _ | .mapping _ =>
    match callConstructSequence larg node with
    | .error e => .error e
    | .ok seqv =>
      if seqv.all isStrYamlVal then .ok (.list seqv)
      else .error (.valueError "Fn::GetAtt does not support complex datastructures")
  | .scalarRaw => .error (.valueError "Fn::GetAtt only supports string or list values")

/-- Source: `_tag_constructor(loader, tag_suffix, node)`: unknown tags fail
with the sorted supported-tag message; function tags are namespaced with
`Fn::`; `Fn::GetAtt` goes through the tuple-wrapped constructor; all other
tags dispatch on the node kind.  The result is the single-key mapping the
generator produces. -/
def tagConstructor (tag_suffix : String) (node : YamlNode) :
    Except PyErr (String × YamlVal) :=
  if ¬ (tag_suffix ∈ CFN_FNS ∨ tag_suffix ∈ CFN_TAGS) then
    .error (.valueError (badTagMessage tag_suffix))
  else
    let key := if tag_suffix ∈ CFN_FNS then "Fn::" ++ tag_suffix else tag_suffix
    if key = "Fn::GetAtt" then
      match getattConstructor GetAttLoaderArg.loaderWrappedInTuple node with
      | .error e => .error e
      | .ok v => .ok (key, v)
    else
      match node with
      | .scalar _ =>
        match constructScalar node with
        | .error e => .error e
        | .ok v => .ok (key, v)
      | .scalarRaw =>
        match constructScalar node with
        | .error e => .error e
        | .ok v => .ok (key, v)
      | .seq _ =>
        match constructSequence node with
        | .error e => .error e
        | .ok xs => .ok (key, .list xs)
      | .mapping _ =>
        match constructMapping node with
        | .error e => .error e
        | .ok prs => .ok (key, .dictV prs)

/-- C4: evaluation of GetAtt tag parsing against the code.  The
single-string case with exactly one separator does parse to the two-element
sequence, and the hand-built other-shape case gives the documented
ValueError, but both sequence cases — the all-string sequence the claim
says is returned unchanged and the nested-sequence case the claim says
fails with the complex-datastructures message — raise `AttributeError`
instead, because `functools` applies `_getatt_constructor` to the tuple
`(loader, )` rather than the loader, and a tuple has no
`construct_sequence`. -/
theorem getatt_sequence_raises_attribute_error :
    tagConstructor "GetAtt" (YamlNode.scalar "MyResource.Arn")
      = Except.ok ("Fn::GetAtt", YamlVal.list [YamlVal.str "MyResource", YamlVal.str "Arn"])
  ∧ tagConstructor "GetAtt" (YamlNode.seq [YamlNode.scalar "MyResource", YamlNode.scalar "Arn"])
      = Except.error (PyErr.attributeError "tuple object has no attribute construct_sequence")
  ∧ tagConstructor "GetAtt"
        (YamlNode.seq [YamlNode.scalar "MyResource", YamlNode.seq [YamlNode.scalar "nested"]])
      = Except.error (PyErr.attributeError "tuple object has no attribute construct_sequence")
  ∧ tagConstructor "GetAtt" YamlNode.scalarRaw
      = Except.error (PyErr.valueError "Fn::GetAtt only supports string or list values") :=
  ⟨rfl, rfl, rfl, rfl⟩

/-- Length of the bad-tag message in terms of the offending tag name. -/
theorem badTagMessage_length (t : String) : (badTagMessage t).length = t.length + 163 := by
  rw [badTagMessage, String.length_append, String.length_append]
  have h1 : ("Bad tag: !" : String).length = 10 := rfl
  have h2 : ((". Supported tags are: "
      ++ String.intercalate ", " supportedTagsSorted) : String).length = 153 := rfl
  omega

/-- The GetAtt shape error is never the bad-tag error: the bad-tag message
is strictly longer. -/
theorem badTag_ne_getattMsg (t : String) :
    "Fn::GetAtt only supports string or list values" ≠ badTagMessage t := by
  intro heq
  have hlen := congrArg String.length heq
  rw [badTagMessage_length] at hlen
  have h46 : ("Fn::GetAtt only supports string or list values" : String).length = 46 := rfl
  omega

/-- C8: parsing a tag name in neither set fails with the message that
enumerates every supported tag name — the sorted join of the union of both
sets, which is sorted in Python's code-point order, is a permutation of the
union, and spells out the explicit enumeration — while a tag name from
either set never fails with that message. -/
theorem unsupported_tag_error_lists_sorted_tags :
    (∀ tag_suffix node, tag_suffix ∉ CFN_FNS → tag_suffix ∉ CFN_TAGS →
        tagConstructor tag_suffix node
          = Except.error (PyErr.valueError (badTagMessage tag_suffix)))
  ∧ List.Sorted (fun a b => strLe a b = true) supportedTagsSorted
  ∧ supportedTagsSorted.Perm (CFN_TAGS ++ CFN_FNS)
  ∧ String.intercalate ", " supportedTagsSorted
      = "And, Base64, Cidr, Condition, Equals, FindInMap, GetAZs, GetAtt, If, ImportValue, Join, Not, Or, Ref, Select, Split, Sub, Transform"
  ∧ (∀ tag_suffix node, tag_suffix ∈ CFN_FNS ∨ tag_suffix ∈ CFN_TAGS →
        tagConstructor tag_suffix node
          ≠ Except.error (PyErr.valueError (badTagMessage tag_suffix))) := by
  refine ⟨?_, by decide, by decide, by decide, ?_⟩
  · intro t node h1 h2
    have hcond : ¬(t ∈ CFN_FNS ∨ t ∈ CFN_TAGS) := fun h => h.elim h1 h2
    simp only [tagConstructor, if_pos hcond]
  · intro t node hmem heq
    have hcond : ¬¬(t ∈ CFN_FNS ∨ t ∈ CFN_TAGS) := fun hn => hn hmem
    cases node with
    | scalar s =>
      simp only [tagConstructor, if_neg hcond, getattConstructor, constructScalar] at heq
      split at heq <;> split at heq <;> simp at heq
    | scalarRaw =>
      simp only [tagConstructor, if_neg hcond, getattConstructor, constructScalar] at heq
      split at heq <;> split at heq <;>
        first
          | exact badTag_ne_getattMsg t (by simpa using heq)
          | simp at heq
    | seq items =>
      simp only [tagConstructor, if_neg hcond, getattConstructor,
        callConstructSequence, constructSequence] at heq
      split at heq <;> split at heq <;> simp at heq
    | mapping prs =>
      simp only [tagConstructor, if_neg hcond, getattConstructor,
        callConstructSequence, constructMapping] at heq
      split at heq <;> split at heq <;> simp at heq

/-- Witness for C8: the unsupported tag `Foo` produces the bad-tag error;
the supported tag `Ref` does not. -/
theorem unsupported_tag_error_lists_sorted_tags_witness :
    ("Foo" ∉ CFN_FNS) ∧ ("Foo" ∉ CFN_TAGS)
  ∧ tagConstructor "Foo" (YamlNode.scalar "x")
      = Except.error (PyErr.valueError (badTagMessage "Foo"))
  ∧ ("Ref" ∈ CFN_FNS ∨ "Ref" ∈ CFN_TAGS)
  ∧ tagConstructor "Ref" (YamlNode.scalar "x")
      ≠ Except.error (PyErr.valueError (badTagMessage "Ref")) :=
  ⟨by decide, by decide,
   unsupported_tag_error_lists_sorted_tags.1 "Foo" (YamlNode.scalar "x")
     (by decide) (by decide),
   by decide,
   unsupported_tag_error_lists_sorted_tags.2.2.2.2 "Ref" (YamlNode.scalar "x")
     (by decide)⟩

/-- Keys of the diff dictionary produced by `DeepDiff.to_dict()`: path
strings (and, inside nested template content, occasionally non-string keys,
carried opaquely as integers).  Key text is a character list. -/
inductive JKey where
  | strK : Line → JKey
  | intK : Int → JKey

/-- JSON-serializable diff values: the shape of the DeepDiff dict after the
json-default conversions. -/
inductive JVal where
  | obj : List (JKey × JVal) → JVal
  | arr : List JVal → JVal
  | strV : Line → JVal
  | numV : Int → JVal
  | boolV : Bool → JVal
  | nullV : JVal

/-- Source: `key[4:] if isinstance(key, str) and key.startswith('root')
else key`. -/
def stripRootKey : JKey → JKey
  | .strK k => if ("root".data).isPrefixOf k then .strK (k.drop 4) else .strK k
  | .intK n => .intK n

mutual
/-- Source: `DeepDiffWriter._remove_root_key_prefixes_recursively`: strip
the prefix off every string dict key and recurse through dict values and
list items; every other value is returned unchanged. -/
def removeRootKeyPrefixes : JVal → JVal
  | .obj kvs => .obj (removeRootKeyPrefixesKVs kvs)
  | .arr xs => .arr (removeRootKeyPrefixesItems xs)
  | .strV s => .strV s
  | .numV n => .numV n
  | .boolV b => .boolV b
  | .nullV => .nullV

/-- The dict branch of the recursive strip. -/
def removeRootKeyPrefixesKVs : List (JKey × JVal) → List (JKey × JVal)
  | [] => []
  | (k, v) :: rest =>
      (stripRootKey k, removeRootKeyPrefixes v) :: removeRootKeyPrefixesKVs rest

/-- The list branch of the recursive strip. -/
def removeRootKeyPrefixesItems : List JVal → List JVal
  | [] => []
  | x :: rest => removeRootKeyPrefixes x :: removeRootKeyPrefixesItems rest
end

/-- A string key beginning with the 4-character root-path prefix. -/
def keyHasRootStart : JKey → Bool
  | .strK k => ("root".data).isPrefixOf k
  | .intK _ => false

/-- A string key beginning with a doubled root prefix. -/
def keyHasDoubleRootStart : JKey → Bool
  | .strK k => ("rootroot".data).isPrefixOf k
  | .intK _ => false

mutual
/-- No string key at any nesting depth begins with the root prefix. -/
def noRootKeys : JVal → Bool
  | .obj kvs => noRootKeysKVs kvs
  | .arr xs => noRootKeysItems xs
  | _ => true

/-- Dict branch of `noRootKeys`. -/
def noRootKeysKVs : List (JKey × JVal) → Bool
  | [] => true
  | (k, v) :: rest => !keyHasRootStart k && noRootKeys v && noRootKeysKVs rest

/-- List branch of `noRootKeys`. -/
def noRootKeysItems : List JVal → Bool
  | [] => true
  | x :: rest => noRootKeys x && noRootKeysItems rest
end

mutual
/-- No string key at any nesting depth begins with the doubled prefix. -/
def noDoubleRootKeys : JVal → Bool
  | .obj kvs => noDoubleRootKeysKVs kvs
  | .arr xs => noDoubleRootKeysItems xs
  | _ => true

/-- Dict branch of `noDoubleRootKeys`. -/
def noDoubleRootKeysKVs : List (JKey × JVal) → Bool
  | [] => true
  | (k, v) :: rest => !keyHasDoubleRootStart k && noDoubleRootKeys v && noDoubleRootKeysKVs rest

/-- List branch of `noDoubleRootKeys`. -/
def noDoubleRootKeysItems : List JVal → Bool
  | [] => true
  | x :: rest => noDoubleRootKeys x && noDoubleRootKeysItems rest
end

/-- Modelled from the spec: the `json.dumps` and `json.loads` pair around
the stripped diff (the spec requires deterministic, round-trippable
output), modelled as the identity on the JSON-representable diff value;
non-string keys, which the dumper would render as their decimal text — text
that can never begin with the root prefix — are left as they are. -/
def jsonRoundTrip (v : JVal) : JVal := v

/-- Source: `DeepDiffWriter.dump_diff` with JSON output format, composed
with parsing the produced JSON text back: the diff dict is stripped of root
key prefixes recursively, dumped with `json.dumps`, and the text parses
back to the round-trip of the stripped value. -/
def dumpDiffJsonRoundTrip (d : JVal) : JVal :=
  jsonRoundTrip (removeRootKeyPrefixes d)

/-- Concrete tree diff carrying the template-content key `rootroot` inside
a `values_changed` entry, as a template whose own resource key begins with
`rootroot` would produce. -/
def c7Diff : JVal :=
  JVal.obj [(JKey.strK "values_changed".data,
    JVal.obj [(JKey.strK "root[0]".data,
      JVal.obj [(JKey.strK "new_value".data,
        JVal.obj [(JKey.strK "rootroot".data, JVal.numV 1)])])])]

/-- C7 counterexample: after stripping and round-tripping `c7Diff`, a key
(the nested `rootroot`, stripped once to `root`) still begins with the
4-character root-path prefix, refuting the claim that no key at any depth
retains it. -/
theorem dump_diff_retains_root_key_cex :
    noRootKeys (dumpDiffJsonRoundTrip c7Diff) = false := by decide

/-- The strip leaves no root-prefixed key when the key did not begin with
the doubled prefix. -/
theorem stripRootKey_no_root (k : JKey) (h : keyHasDoubleRootStart k = false) :
    keyHasRootStart (stripRootKey k) = false := by
  cases k with
  | intK n => rfl
  | strK s =>
    simp only [keyHasDoubleRootStart] at h
    rw [stripRootKey]
    by_cases hr : ("root".data).isPrefixOf s = true
    · rw [if_pos hr]
      simp only [keyHasRootStart]
      by_contra habs
      rw [Bool.not_eq_false] at habs
      obtain ⟨t, ht⟩ := List.isPrefixOf_iff_prefix.mp hr
      have hdrop : s.drop 4 = t := by
        rw [← ht]
        exact List.drop_left "root".data t
      rw [hdrop] at habs
      obtain ⟨u, hu⟩ := List.isPrefixOf_iff_prefix.mp habs
      have hdouble : ("rootroot".data).isPrefixOf s = true := by
        apply List.isPrefixOf_iff_prefix.mpr
        exact ⟨u, by rw [← ht, ← hu]; rfl⟩
      rw [hdouble] at h
      exact absurd h (by simp)
    · rw [if_neg hr]
      simp only [keyHasRootStart]
      exact Bool.eq_false_iff.mpr (fun hc => hr hc)

mutual
/-- Value part of the strip-leaves-no-root-keys induction. -/
theorem noRoot_after_strip_val :
    ∀ d : JVal, noDoubleRootKeys d = true →
      noRootKeys (removeRootKeyPrefixes d) = true
  | .obj kvs, h => by
      simp only [noDoubleRootKeys] at h
      simp only [removeRootKeyPrefixes, noRootKeys]
      exact noRoot_after_strip_kvs kvs h
  | .arr xs, h => by
      simp only [noDoubleRootKeys] at h
      simp only [removeRootKeyPrefixes, noRootKeys]
      exact noRoot_after_strip_items xs h
  | .strV _, _ => rfl
  | .numV _, _ => rfl
  | .boolV _, _ => rfl
  | .nullV, _ => rfl

/-- Dict part of the strip-leaves-no-root-keys induction. -/
theorem noRoot_after_strip_kvs :
    ∀ kvs : List (JKey × JVal), noDoubleRootKeysKVs kvs = true →
      noRootKeysKVs (removeRootKeyPrefixesKVs kvs) = true
  | [], _ => rfl
  | (k, v) :: rest, h => by
      simp only [noDoubleRootKeysKVs, Bool.and_eq_true] at h
      simp only [removeRootKeyPrefixesKVs, noRootKeysKVs, Bool.and_eq_true]
      have hk : keyHasDoubleRootStart k = false := by
        have hkk := h.1.1
        simpa using hkk
      refine ⟨⟨?_, noRoot_after_strip_val v h.1.2⟩, noRoot_after_strip_kvs rest h.2⟩
      rw [stripRootKey_no_root k hk]
      rfl

/-- List part of the strip-leaves-no-root-keys induction. -/
theorem noRoot_after_strip_items :
    ∀ xs : List JVal, noDoubleRootKeysItems xs = true →
      noRootKeysItems (removeRootKeyPrefixesItems xs) = true
  | [], _ => rfl
  | x :: rest, h => by
      simp only [noDoubleRootKeysItems, Bool.and_eq_true] at h
      simp only [removeRootKeyPrefixesItems, noRootKeysItems, Bool.and_eq_true]
      exact ⟨noRoot_after_strip_val x h.1, noRoot_after_strip_items rest h.2⟩
end

/-- C7 amended: for every tree diff none of whose string keys (at any
nesting depth) begins with the doubled prefix `rootroot`, rendering the
diff in JSON output format and parsing the produced text back yields a
mapping in which no key at any depth retains the 4-character root-path
prefix.  The proviso is forced by the counterexample: the strip removes the
prefix once rather than iterating, so a key beginning `rootroot` is left
beginning with `root`. -/
theorem dump_diff_no_root_keys (d : JVal) (h : noDoubleRootKeys d = true) :
    noRootKeys (dumpDiffJsonRoundTrip d) = true :=
  noRoot_after_strip_val d h

/-- Ordinary tree diff with a stripped path key and no doubled prefix. -/
def c7OkDiff : JVal :=
  JVal.obj [(JKey.strK "values_changed".data,
    JVal.obj [(JKey.strK "root[0]".data,
      JVal.obj [(JKey.strK "new_value".data, JVal.numV 2),
                (JKey.strK "old_value".data, JVal.numV 1)])]),
    (JKey.strK "dictionary_item_added".data,
      JVal.arr [JVal.strV "root[1]".data])]

/-- Witness for the amended C7 theorem at a concrete ordinary diff. -/
theorem dump_diff_no_root_keys_witness :
    noDoubleRootKeys c7OkDiff = true
  ∧ noRootKeys (dumpDiffJsonRoundTrip c7OkDiff) = true :=
  ⟨by decide, dump_diff_no_root_keys c7OkDiff (by decide)⟩
